import Mathlib

/-!
Shallow embedding of the MusicBingo core engine: the `BingoGameLogic`
class (src/utils/BingoLogic.ts) and the batch generator
`generateTickets` (src/context/GameContext.tsx), together with proofs
of the specified properties.
-/

namespace MusicBingo

/-- Catalog item (`Song` in BingoLogic.ts); only the identifier matters
to the core, the other fields are opaque payload. -/
structure Song where
  id : String
  artist : String
  title : String
  filePath : String
  deriving DecidableEq

/-- One grid cell (`BingoGridCell`): a song plus the UI `marked` flag. -/
structure BingoGridCell where
  song : Song
  marked : Bool
  deriving DecidableEq

/-- A ticket (`BingoTicket`): identifier plus a grid of cells. -/
structure BingoTicket where
  id : String
  grid : List (List BingoGridCell)
  deriving DecidableEq

/-- Win conditions (`WinType` in BingoLogic.ts: the string constants
1_LINE, 2_LINES, FOUR_CORNERS, FULL_HOUSE). -/
inductive WinType where
  | oneLine
  | twoLines
  | fourCorners
  | fullHouse
  deriving DecidableEq

/-- Loop of `BingoGameLogic.combinations`: starting at loop index `i`
with accumulator `res`, run the remaining `fuel` iterations of
`res = res * (n - i + 1) / i`, returning the cap 1000000 as soon as the
accumulator exceeds it (the `if (res > 1_000_000) return 1_000_000`
early exit).  JS numbers are modelled as exact rationals. -/
def combinationsGo (n : ℚ) : ℕ → ℕ → ℚ → ℚ
  | _i, 0, res => res
  | i, fuel + 1, res =>
    let res2 := res * (n - (i : ℚ) + 1) / (i : ℚ)
    if res2 > 1000000 then 1000000 else combinationsGo n (i + 1) fuel res2

/-- `BingoGameLogic.combinations(n, r)`: n choose r via the
multiplicative formula with the `C(n,r) = C(n,n-r)` symmetry reduction
(`if (r > n / 2) r = n - r`) and a 1,000,000 safety cap; `Math.floor`
is applied to the final accumulator. -/
def combinations (n r : ℤ) : ℤ :=
  if r < 0 ∨ r > n then 0
  else if r = 0 ∨ r = n then 1
  else
    let r2 : ℤ := if (r : ℚ) > (n : ℚ) / 2 then n - r else r
    Int.floor (combinationsGo (n : ℚ) 1 r2.toNat 1)

/-- `BingoGameLogic.calculateSafeMax(catalogSize, gridSize)`. -/
def calculateSafeMax (catalogSize gridSize : ℤ) : ℤ :=
  let requiredSongs := gridSize * gridSize
  if catalogSize < requiredSongs then 0
  else combinations catalogSize requiredSongs

/-- Default song used to totalise out-of-range list indexing; never
reached on the inputs the theorems quantify over. -/
def defaultSong : Song := { id := "", artist := "", title := "", filePath := "" }

/-- Error message thrown by `BingoGameLogic.generateTicket` when the
catalog is smaller than the grid requires. -/
def catalogTooSmallMsg (gridSize : ℕ) : String :=
  "Catalog must have at least " ++ toString (gridSize * gridSize) ++
    " songs to generate a " ++ toString gridSize ++ "x" ++ toString gridSize ++ " ticket."

/-- `BingoGameLogic.generateTicket`: the `Math.random`-driven shuffle is
an oracle parameter `shuffle` (theorems assume only that it permutes the
catalog, which `Array.prototype.sort` guarantees for any comparator);
the thrown exception is modelled as `Except.error`.  The nested
row/column loops fill cell (r, c) with `selectedSongs[r * gridSize + c]`
exactly as the running `songIndex` does. -/
def generateTicket (catalog : List Song) (gridSize : ℕ)
    (shuffle : List Song → List Song) (tid : String) : Except String BingoTicket :=
  let requiredSongs := gridSize * gridSize
  if catalog.length < requiredSongs then
    Except.error (catalogTooSmallMsg gridSize)
  else
    let shuffled := shuffle catalog
    let selectedSongs := shuffled.take requiredSongs
    let grid := (List.range gridSize).map fun r =>
      (List.range gridSize).map fun c =>
        { song := selectedSongs.getD (r * gridSize + c) defaultSong, marked := false }
    Except.ok { id := tid, grid := grid }

/-- Default cell used to totalise out-of-range JS index accesses (only
reachable on non-rectangular grids, which no theorem quantifies over). -/
def defaultCell : BingoGridCell := { song := defaultSong, marked := false }

/-- Membership test `playedSongIds.has(cell.song.id)`; the played
`Set<string>` is modelled as a list of identifiers. -/
def cellPlayed (playedSongIds : List String) (cell : BingoGridCell) : Bool :=
  playedSongIds.contains cell.song.id

/-- `BingoGameLogic.checkWins`.  A JS null/undefined grid is `none`.
Line counting, diagonals (square grids only), four corners and full
house follow the source loops; the win list is built in source push
order: 1_LINE, 2_LINES, FOUR_CORNERS, FULL_HOUSE. -/
def checkWins (grid : Option (List (List BingoGridCell)))
    (playedSongIds : List String) : List WinType :=
  match grid with
  | none => []
  | some g =>
    if g.length = 0 then [] else
    let rows := g.length
    let cols := (g.headD []).length
    let horizontalLines := g.countP fun row => row.all (cellPlayed playedSongIds)
    let verticalLines := (List.range cols).countP fun c =>
      (List.range rows).all fun r =>
        cellPlayed playedSongIds ((g.getD r []).getD c defaultCell)
    let diagonalLines :=
      if rows = cols then
        (if (List.range rows).all
            (fun i => cellPlayed playedSongIds ((g.getD i []).getD i defaultCell))
          then 1 else 0) +
        (if (List.range rows).all
            (fun i => cellPlayed playedSongIds ((g.getD i []).getD (rows - 1 - i) defaultCell))
          then 1 else 0)
      else 0
    let totalLines := horizontalLines + verticalLines + diagonalLines
    let fourCorners :=
      if 2 ≤ rows ∧ 2 ≤ cols then
        cellPlayed playedSongIds ((g.getD 0 []).getD 0 defaultCell) &&
        cellPlayed playedSongIds ((g.getD 0 []).getD (cols - 1) defaultCell) &&
        cellPlayed playedSongIds ((g.getD (rows - 1) []).getD 0 defaultCell) &&
        cellPlayed playedSongIds ((g.getD (rows - 1) []).getD (cols - 1) defaultCell)
      else false
    let allMarked := g.all fun row => row.all (cellPlayed playedSongIds)
    (if 1 ≤ totalLines then [WinType.oneLine] else []) ++
    (if 2 ≤ totalLines then [WinType.twoLines] else []) ++
    (if fourCorners then [WinType.fourCorners] else []) ++
    (if allMarked then [WinType.fullHouse] else [])

/-- The sorted (ascending) sequence of grid-cell song ids of a ticket:
`ticket.grid.flat().map(c => c.song.id).sort()`. -/
def sortedSongIds (t : BingoTicket) : List String :=
  (t.grid.flatten.map fun c => c.song.id).insertionSort (· ≤ ·)

/-- Canonical order-independent signature of a ticket: the sorted ids
joined with commas (GameContext.tsx, `songIds`). -/
def ticketSignature (t : BingoTicket) : String :=
  String.intercalate "," (sortedSongIds t)

/-- Retry bound per ticket slot (GameContext.tsx `maxAttempts`). -/
def maxAttempts : ℕ := 200

/-- Result of the per-slot retry loop. -/
inductive SlotResult where
  | found (t : BingoTicket) (sig : String)
  | exhausted
  | errored (msg : String)
  deriving DecidableEq

/-- The `while (attempts < maxAttempts)` loop of `generateTickets` for
one slot: `attempts` is the JS counter (it also indexes the random
draw), `fuel = maxAttempts - attempts` counts the remaining
iterations.  A duplicate signature increments `attempts` and retries;
a fresh one exits the loop with the ticket stored. -/
def genSlotGo (songsToUse : List Song) (gridSize : ℕ)
    (oracle1 : ℕ → List Song → List Song) (ticketId : String)
    (generatedSets : List String) : ℕ → ℕ → SlotResult
  | _attempts, 0 => SlotResult.exhausted
  | attempts, fuel + 1 =>
    match generateTicket songsToUse gridSize (oracle1 attempts) ticketId with
    | Except.error msg => SlotResult.errored msg
    | Except.ok t =>
      let songIds := ticketSignature t
      if generatedSets.contains songIds then
        genSlotGo songsToUse gridSize oracle1 ticketId generatedSets (attempts + 1) fuel
      else
        SlotResult.found t songIds

/-- One full slot: the retry loop started at `attempts = 0`. -/
def genSlot (songsToUse : List Song) (gridSize : ℕ)
    (oracle1 : ℕ → List Song → List Song) (ticketId : String)
    (generatedSets : List String) : SlotResult :=
  genSlotGo songsToUse gridSize oracle1 ticketId generatedSets 0 maxAttempts

/-- Outcome of one `generateTickets` call.  `noSongs`, `overMax` and
`errorExit` are the early returns that leave the caller ticket state
untouched; `done` is the final `setTickets(newTickets)`, with
`stoppedEarly` recording the duplicate-exhaustion alert. -/
inductive BatchResult where
  | noSongs
  | overMax
  | errorExit (msg : String)
  | done (tickets : List BingoTicket) (stoppedEarly : Bool)
  deriving DecidableEq

/-- The `for (let i = 0; i < count; i++)` loop of `generateTickets`:
`i` is the slot index (slot ids are `(i+1).toString()`), `rem` the
remaining slots.  The JS `Map` keyed by the pairwise-distinct decimal
ids is modelled as the insertion-ordered list `newTickets`. -/
def runSlots (songsToUse : List Song) (gridSize : ℕ)
    (oracle : ℕ → ℕ → List Song → List Song) :
    ℕ → ℕ → List String → List BingoTicket → BatchResult
  | _i, 0, _generatedSets, newTickets => BatchResult.done newTickets false
  | i, rem + 1, generatedSets, newTickets =>
    match genSlot songsToUse gridSize (oracle i) (toString (i + 1)) generatedSets with
    | SlotResult.errored msg => BatchResult.errorExit msg
    | SlotResult.exhausted => BatchResult.done newTickets true
    | SlotResult.found t sig =>
      runSlots songsToUse gridSize oracle (i + 1) rem
        (generatedSets ++ [sig]) (newTickets ++ [t])

/-- The catalog a `generateTickets` call actually uses: the selected
songs when a selection exists (`selectedSongIds.size > 0`), otherwise
the whole library. -/
def songsToUseOf (songs : List Song) (selectedSongIds : List String) : List Song :=
  if 0 < selectedSongIds.length then
    songs.filter fun s => selectedSongIds.contains s.id
  else songs

/-- `generateTickets(count)` from GameContext.tsx: filter to the
selected songs when a selection exists, guard on `calculateSafeMax`,
then run the slot loop.  The per-attempt shuffles are an oracle indexed
by slot and attempt number. -/
def generateTickets (songs : List Song) (selectedSongIds : List String)
    (gridSize : ℕ) (count : ℕ)
    (oracle : ℕ → ℕ → List Song → List Song) : BatchResult :=
  let songsToUse := songsToUseOf songs selectedSongIds
  if songsToUse.length = 0 then BatchResult.noSongs
  else
    let safeMax := calculateSafeMax (songsToUse.length : ℤ) (gridSize : ℤ)
    if (count : ℤ) > safeMax ∧ safeMax > 0 then BatchResult.overMax
    else runSlots songsToUse gridSize oracle 0 count [] []

end MusicBingo

namespace MusicBingo

/-- C9: the bound calculator returns 0 whenever `r > n` or `r < 0`, and
(when `0 ≤ r ≤ n`) returns 1 whenever `r = 0` or `r = n`; it is a total
function on all integer inputs, so no error can be raised. -/
theorem combinations_edge_cases (n r : ℤ) :
    ((r > n ∨ r < 0) → combinations n r = 0) ∧
    (0 ≤ r → r ≤ n → (r = 0 ∨ r = n) → combinations n r = 1) := by
  constructor
  · intro h
    unfold combinations
    rw [if_pos (by tauto)]
  · intro h0 hn he
    unfold combinations
    rw [if_neg (by omega), if_pos he]

/-- Witness for `combinations_edge_cases` at concrete inputs. -/
theorem combinations_edge_cases_w :
    combinations 5 7 = 0 ∧ combinations 7 (-1) = 0 ∧
    combinations 4 0 = 1 ∧ combinations 4 4 = 1 :=
  ⟨(combinations_edge_cases 5 7).1 (Or.inl (by decide)),
   (combinations_edge_cases 7 (-1)).1 (Or.inr (by decide)),
   (combinations_edge_cases 4 0).2 (by decide) (by decide) (Or.inl rfl),
   (combinations_edge_cases 4 4).2 (by decide) (by decide) (Or.inr rfl)⟩

/-- C8: a null/undefined grid or a grid with zero rows yields the empty
win list, and no error is raised (the function is total). -/
theorem checkWins_degenerate (playedSongIds : List String) :
    checkWins none playedSongIds = [] ∧ checkWins (some []) playedSongIds = [] :=
  ⟨rfl, rfl⟩

/-- C10: a grid with at least one row in which every row is empty makes
every row vacuously complete and the grid vacuously fully covered, so
`checkWins` reports both 1_LINE and FULL_HOUSE even for an empty played
set. -/
theorem checkWins_all_empty_rows (g : List (List BingoGridCell))
    (playedSongIds : List String)
    (hrows : 1 ≤ g.length) (hempty : ∀ row ∈ g, row = []) :
    WinType.oneLine ∈ checkWins (some g) playedSongIds ∧
    WinType.fullHouse ∈ checkWins (some g) playedSongIds := by
  have hne : ¬ g.length = 0 := by omega
  have hcount : (g.countP fun row => row.all (cellPlayed playedSongIds)) = g.length :=
    List.countP_eq_length.mpr fun row hrow => by rw [hempty row hrow]; rfl
  have hall : (g.all fun row => row.all (cellPlayed playedSongIds)) = true :=
    List.all_eq_true.mpr fun row hrow => by rw [hempty row hrow]; rfl
  constructor <;>
    simp only [checkWins, if_neg hne, hcount, hall, List.mem_append] <;>
    [skip; simp] <;>
    left <;> split <;> simp_all <;> omega

end MusicBingo

namespace MusicBingo

/-- C5 (amended): when the (selected) catalog is smaller than
`gridSize²`, the whole batch fails on the very first generation attempt
with the thrown catalog-too-small message and no ticket is produced or
stored (`errorExit` is the early `return` taken before `setTickets`);
the message names the grid size and the items-per-ticket requirement
(it does not include the actual catalog size). -/
theorem generateTickets_small_catalog (songs : List Song) (gridSize count : ℕ)
    (oracle : ℕ → ℕ → List Song → List Song)
    (hne : songs.length ≠ 0) (hlt : songs.length < gridSize * gridSize)
    (hcnt : 1 ≤ count) :
    generateTickets songs [] gridSize count oracle =
      BatchResult.errorExit (catalogTooSmallMsg gridSize) := by
  obtain ⟨c, rfl⟩ : ∃ c, count = c + 1 := ⟨count - 1, by omega⟩
  have hsafe : calculateSafeMax (songs.length : ℤ) (gridSize : ℤ) = 0 := by
    unfold calculateSafeMax
    rw [if_pos (by push_cast; exact_mod_cast hlt)]
  have h200 : maxAttempts = 199 + 1 := rfl
  have hgen : generateTicket songs gridSize (oracle 0 0) (toString (0 + 1)) =
      Except.error (catalogTooSmallMsg gridSize) := by
    unfold generateTicket
    rw [if_pos hlt]
  simp only [generateTickets, songsToUseOf, List.length_nil, lt_irrefl, if_false,
    if_neg hne, hsafe, runSlots, genSlot, h200, genSlotGo, hgen]
  simp

end MusicBingo

namespace MusicBingo

/-- Witness for `generateTickets_small_catalog`: a 3-song catalog with
grid size 2 (4 songs required). -/
theorem generateTickets_small_catalog_w :
    generateTickets [⟨"a", "", "", ""⟩, ⟨"b", "", "", ""⟩, ⟨"c", "", "", ""⟩] [] 2 1
        (fun _ _ l => l) =
      BatchResult.errorExit (catalogTooSmallMsg 2) :=
  generateTickets_small_catalog _ 2 1 _ (by decide) (by decide) (by decide)

/-- C5 counterexample: for a 3-song catalog and grid size 2 the batch
does fail up front as claimed, but the reported error message is
"Catalog must have at least 4 songs to generate a 2x2 ticket.", which
nowhere contains the digit 3, so it does not name the actual catalog
size — refuting that part of the claim at this concrete input. -/
theorem generateTickets_error_omits_catalog_size :
    generateTickets [⟨"a", "", "", ""⟩, ⟨"b", "", "", ""⟩, ⟨"c", "", "", ""⟩] [] 2 1
        (fun _ _ l => l) =
      BatchResult.errorExit "Catalog must have at least 4 songs to generate a 2x2 ticket." ∧
    ¬ ('3' ∈ "Catalog must have at least 4 songs to generate a 2x2 ticket.".toList) := by
  constructor
  · decide
  · decide

end MusicBingo

namespace MusicBingo

/-- Bound invariant of the `combinations` loop: starting from a
nonnegative accumulator at or below the cap, with every remaining loop
index at most `n`, the result stays within `[0, 1000000]`. -/
theorem combinationsGo_bounds (n : ℚ) :
    ∀ (fuel i : ℕ) (res : ℚ), 1 ≤ i → (i : ℚ) + (fuel : ℚ) ≤ n + 1 →
      0 ≤ res → res ≤ 1000000 →
      0 ≤ combinationsGo n i fuel res ∧ combinationsGo n i fuel res ≤ 1000000 := by
  intro fuel
  induction fuel with
  | zero =>
    intro i res _ _ h0 h1
    simpa only [combinationsGo] using ⟨h0, h1⟩
  | succ fuel ih =>
    intro i res hi hle h0 h1
    simp only [combinationsGo]
    have hipos : (0 : ℚ) < (i : ℚ) := by exact_mod_cast hi
    have hfac : 0 ≤ n - (i : ℚ) + 1 := by
      push_cast at hle
      linarith
    have h2 : 0 ≤ res * (n - (i : ℚ) + 1) / (i : ℚ) :=
      div_nonneg (mul_nonneg h0 hfac) hipos.le
    split
    · norm_num
    · rename_i hc
      push_neg at hc
      refine ih (i + 1) _ (by omega) ?_ h2 hc
      push_cast
      push_cast at hle
      linarith

/-- Helper: the JS symmetry test `r > n / 2` (exact real division) as
an integer comparison. -/
theorem half_lt_iff (n r : ℤ) : ((r : ℚ) > (n : ℚ) / 2) ↔ n < r * 2 := by
  rw [gt_iff_lt, div_lt_iff₀ (by norm_num : (0 : ℚ) < 2)]
  exact_mod_cast Iff.rfl

/-- C7: on every pair of integer inputs the bound calculator stays in
`[0, 1000000]` — in the loop case because the accumulator is clamped to
the cap 1000000 as soon as it exceeds it before the next iteration —
and in particular `combinations 50 25` is exactly the cap. -/
theorem combinations_capped :
    (∀ n r : ℤ, 0 ≤ combinations n r ∧ combinations n r ≤ 1000000) ∧
    combinations 50 25 = 1000000 := by
  constructor
  · intro n r
    unfold combinations
    split
    · norm_num
    · split
      · norm_num
      · rename_i h1 h2
        push_neg at h1 h2
        have h1a : 0 ≤ r := h1.1
        have h1b : r ≤ n := h1.2
        set r2 : ℤ := if (r : ℚ) > (n : ℚ) / 2 then n - r else r with hr2
        have hr2n : r2 ≤ n ∧ 0 ≤ r2 := by
          rw [hr2]
          split <;> omega
        have hbound : (1 : ℚ) + (r2.toNat : ℚ) ≤ (n : ℚ) + 1 := by
          have hc : ((r2.toNat : ℤ) : ℚ) ≤ (n : ℚ) := by
            exact_mod_cast (by omega : (r2.toNat : ℤ) ≤ n)
          push_cast at hc ⊢
          linarith
        have hb := combinationsGo_bounds (n : ℚ) r2.toNat 1 1 le_rfl hbound
          (by norm_num) (by norm_num)
        refine ⟨Int.floor_nonneg.mpr hb.1, ?_⟩
        have := Int.floor_mono hb.2
        simpa using this
  · norm_num [combinations, combinationsGo]

end MusicBingo

namespace MusicBingo

/-- `Nat.choose n` is monotone on the left half of its second argument. -/
theorem choose_mono_left_half (n : ℕ) :
    ∀ i k : ℕ, i ≤ k → k * 2 ≤ n → n.choose i ≤ n.choose k := by
  intro i k hik
  induction k, hik using Nat.le_induction with
  | base => intro _; exact le_rfl
  | succ k hk ih =>
    intro h2
    have hstep : n.choose k ≤ n.choose (k + 1) :=
      Nat.choose_le_succ_of_lt_half_left (by omega)
    exact le_trans (ih (by omega)) hstep

/-- Exactness invariant of the `combinations` loop: for `k` in the left
half with `C(n,k)` at most the cap, running the remaining iterations
from index `i` with accumulator `C(n,i-1)` produces exactly `C(n,k)`
(each step turns `C(n,i-1)` into `C(n,i)` and never trips the cap). -/
theorem combinationsGo_choose (n k : ℕ) (hk : k * 2 ≤ n)
    (hcap : n.choose k ≤ 1000000) :
    ∀ (fuel i : ℕ), 1 ≤ i → i + fuel = k + 1 →
      combinationsGo (n : ℚ) i fuel ((n.choose (i - 1) : ℕ) : ℚ) = ((n.choose k : ℕ) : ℚ) := by
  intro fuel
  induction fuel with
  | zero =>
    intro i h1 hik
    have hi : i - 1 = k := by omega
    simp only [combinationsGo, hi]
  | succ fuel ih =>
    intro i h1 hik
    have hik2 : i ≤ k := by omega
    have hin : i - 1 ≤ n := by omega
    have hiq : ((i : ℕ) : ℚ) ≠ 0 := by
      exact_mod_cast Nat.pos_iff_ne_zero.mp (by omega)
    have hid : n.choose i * i = n.choose (i - 1) * (n - (i - 1)) := by
      have h := Nat.choose_succ_right_eq n (i - 1)
      rwa [(by omega : i - 1 + 1 = i)] at h
    have hidq : ((n.choose i : ℕ) : ℚ) * ((i : ℕ) : ℚ) =
        ((n.choose (i - 1) : ℕ) : ℚ) * (((n : ℕ) : ℚ) - (((i : ℕ) : ℚ) - 1)) := by
      have hq := congrArg (fun m : ℕ => (m : ℚ)) hid
      push_cast [Nat.cast_sub hin, Nat.cast_sub h1] at hq
      linear_combination hq
    have hstep : ((n.choose (i - 1) : ℕ) : ℚ) * (((n : ℕ) : ℚ) - ((i : ℕ) : ℚ) + 1) / ((i : ℕ) : ℚ) =
        ((n.choose i : ℕ) : ℚ) := by
      rw [div_eq_iff hiq, hidq]
      ring
    have hle : ((n.choose i : ℕ) : ℚ) ≤ 1000000 := by
      have := le_trans (choose_mono_left_half n i k hik2 hk) hcap
      exact_mod_cast this
    simp only [combinationsGo, hstep, if_neg (not_lt.mpr hle)]
    have h := ih (i + 1) (by omega) (by omega)
    rwa [(by omega : i + 1 - 1 = i)] at h

end MusicBingo

namespace MusicBingo

/-- C4 (amended): for `0 ≤ r ≤ n ≤ 30` the calculator returns the
mathematically exact binomial coefficient `C(n,r)` provided that value
does not exceed the 1,000,000 safety cap; the quoted examples
C(25,25)=1, C(25,0)=1, C(25,1)=25 and C(10,5)=252 all satisfy the
proviso. -/
theorem combinations_exact (n r : ℕ) (hrn : r ≤ n) (hn30 : n ≤ 30)
    (hcap : n.choose r ≤ 1000000) :
    combinations (n : ℤ) (r : ℤ) = (n.choose r : ℤ) := by
  unfold combinations
  rw [if_neg (by push_cast; omega)]
  by_cases h0 : (r : ℤ) = 0 ∨ (r : ℤ) = (n : ℤ)
  · rw [if_pos h0]
    rcases h0 with h | h
    · have : r = 0 := by exact_mod_cast h
      simp [this]
    · have : r = n := by exact_mod_cast h
      simp [this]
  · rw [if_neg h0]
    have hr1 : 1 ≤ r := by
      rcases Nat.eq_zero_or_pos r with h | h
      · exact absurd (Or.inl (by exact_mod_cast congrArg (Nat.cast : ℕ → ℤ) h)) h0
      · exact h
    have hrn2 : r < n := by
      rcases Nat.lt_or_ge r n with h | h
      · exact h
      · have : r = n := by omega
        exact absurd (Or.inr (by exact_mod_cast congrArg (Nat.cast : ℕ → ℤ) this)) h0
    have hq : (((n : ℤ) : ℚ)) = ((n : ℕ) : ℚ) := by push_cast; ring
    by_cases hs : ((r : ℤ) : ℚ) > (((n : ℤ) : ℚ)) / 2
    · -- symmetry branch: r2 = n - r
      have hnr : n < r * 2 := by
        have := (half_lt_iff (n : ℤ) (r : ℤ)).mp hs
        exact_mod_cast this
      rw [if_pos hs]
      have htn : ((n : ℤ) - (r : ℤ)).toNat = n - r := by omega
      simp only [htn, hq]
      have hgo := combinationsGo_choose n (n - r) (by omega)
        (by rwa [Nat.choose_symm hrn]) (n - r) 1 le_rfl (by omega)
      simp only [Nat.sub_self, Nat.choose_zero_right, Nat.cast_one] at hgo
      rw [hgo, Nat.choose_symm hrn]
      exact Int.floor_natCast _
    · -- direct branch: r2 = r
      have hnr : r * 2 ≤ n := by
        have := (half_lt_iff (n : ℤ) (r : ℤ)).not.mp hs
        omega
      rw [if_neg hs]
      have htn : ((r : ℤ)).toNat = r := by omega
      simp only [htn, hq]
      have hgo := combinationsGo_choose n r hnr hcap r 1 le_rfl (by omega)
      simp only [Nat.sub_self, Nat.choose_zero_right, Nat.cast_one] at hgo
      rw [hgo]
      exact Int.floor_natCast _

end MusicBingo

namespace MusicBingo

/-- C4 counterexample: at `n = 30, r = 15` (inside `0 ≤ r ≤ n ≤ 30`)
the calculator returns the 1,000,000 cap, while the mathematically
exact value is `C(30,15) = 155117520`, so the two differ. -/
theorem combinations_not_exact_30_15 :
    combinations 30 15 = 1000000 ∧ Nat.choose 30 15 = 155117520 ∧
    combinations 30 15 ≠ (Nat.choose 30 15 : ℤ) := by
  have h1 : combinations 30 15 = 1000000 := by
    norm_num [combinations, combinationsGo]
  have h2 : Nat.choose 30 15 = 155117520 := by
    rw [Nat.choose_eq_descFactorial_div_factorial]
    rfl
  refine ⟨h1, h2, ?_⟩
  rw [h1, h2]
  decide

/-- Witness for `combinations_exact` at the four quoted examples. -/
theorem combinations_exact_w :
    combinations 25 25 = 1 ∧ combinations 25 0 = 1 ∧
    combinations 25 1 = 25 ∧ combinations 10 5 = 252 :=
  ⟨(combinations_exact 25 25 (by decide) (by decide) (by decide)).trans (by decide),
   (combinations_exact 25 0 (by decide) (by decide) (by decide)).trans (by decide),
   (combinations_exact 25 1 (by decide) (by decide) (by decide)).trans (by decide),
   (combinations_exact 10 5 (by decide) (by decide) (by decide)).trans (by decide)⟩

end MusicBingo

namespace MusicBingo

/-- Witness for `checkWins_all_empty_rows`: one empty row, empty played
set. -/
theorem checkWins_all_empty_rows_w :
    WinType.oneLine ∈ checkWins (some [[]]) [] ∧
    WinType.fullHouse ∈ checkWins (some [[]]) [] :=
  checkWins_all_empty_rows [[]] [] (by decide) (by decide)

/-- Iterating a predicate over positional accesses `l[r]` for
`r < l.length` is the same as iterating it over the elements. -/
theorem all_range_getD {α : Type} (l : List α) (d : α) (q : α → Bool) :
    ((List.range l.length).all fun r => q (l.getD r d)) = l.all q := by
  rw [Bool.eq_iff_iff]
  simp only [List.all_eq_true, List.mem_range]
  constructor
  · intro h x hx
    obtain ⟨i, hi, hix⟩ := List.getElem_of_mem hx
    have hd : l.getD i d = x := by
      simp [List.getD_eq_getElem?_getD, List.getElem?_eq_getElem hi, hix]
    exact hd ▸ h i hi
  · intro h i hi
    have hd : l.getD i d = l[i] := by
      simp [List.getD_eq_getElem?_getD, List.getElem?_eq_getElem hi]
    rw [hd]
    exact h _ (List.getElem_mem hi)

/-- Number of complete rows per the spec sentence: rows whose every
cell identifier is in the played set. -/
def specRowLines (g : List (List BingoGridCell)) (playedSongIds : List String) : ℕ :=
  g.countP fun row => row.all (cellPlayed playedSongIds)

/-- Number of complete columns per the spec sentence: column indices
below the common row length whose cell in every row is played. -/
def specColLines (g : List (List BingoGridCell)) (playedSongIds : List String) : ℕ :=
  (List.range (g.headD []).length).countP fun c =>
    g.all fun row => cellPlayed playedSongIds (row.getD c defaultCell)

/-- Number of complete full diagonals per the spec sentence: the two
diagonals are counted only when the grid is square, otherwise 0. -/
def specDiagLines (g : List (List BingoGridCell)) (playedSongIds : List String) : ℕ :=
  if g.length = (g.headD []).length then
    (if (List.range g.length).all
        (fun i => cellPlayed playedSongIds ((g.getD i []).getD i defaultCell))
      then 1 else 0) +
    (if (List.range g.length).all
        (fun i => cellPlayed playedSongIds ((g.getD i []).getD (g.length - 1 - i) defaultCell))
      then 1 else 0)
  else 0

/-- Total completed-line count per the spec sentence: complete rows
plus complete columns plus complete diagonals. -/
def specTotalLines (g : List (List BingoGridCell)) (playedSongIds : List String) : ℕ :=
  specRowLines g playedSongIds + specColLines g playedSongIds + specDiagLines g playedSongIds

end MusicBingo

namespace MusicBingo

/-- Membership in the win list built by `checkWins` is governed by the
thresholds on the total line count (the other two entries are the
distinct FOUR_CORNERS / FULL_HOUSE constructors). -/
theorem winList_mem_lines (T : ℕ) (c3 c4 : Prop) [Decidable c3] [Decidable c4] :
    (WinType.oneLine ∈ (if 1 ≤ T then [WinType.oneLine] else []) ++
      (if 2 ≤ T then [WinType.twoLines] else []) ++
      (if c3 then [WinType.fourCorners] else []) ++
      (if c4 then [WinType.fullHouse] else []) ↔ 1 ≤ T) ∧
    (WinType.twoLines ∈ (if 1 ≤ T then [WinType.oneLine] else []) ++
      (if 2 ≤ T then [WinType.twoLines] else []) ++
      (if c3 then [WinType.fourCorners] else []) ++
      (if c4 then [WinType.fullHouse] else []) ↔ 2 ≤ T) := by
  constructor <;> split <;> split <;> split <;> split <;> simp_all

/-- C3: on a grid with at least one row whose rows all have the common
length, `checkWins` reports 1_LINE exactly when the total completed-line
count (complete rows + complete columns + complete diagonals, the
diagonals counting only for square grids) is at least 1, and 2_LINES
exactly when that same total is at least 2. -/
theorem checkWins_line_thresholds (g : List (List BingoGridCell))
    (playedSongIds : List String)
    (hrows : 1 ≤ g.length)
    (hrect : ∀ row ∈ g, row.length = (g.headD []).length) :
    (WinType.oneLine ∈ checkWins (some g) playedSongIds ↔
      1 ≤ specTotalLines g playedSongIds) ∧
    (WinType.twoLines ∈ checkWins (some g) playedSongIds ↔
      2 ≤ specTotalLines g playedSongIds) := by
  have hne : ¬ g.length = 0 := by omega
  have hcolc : ((List.range (g.headD []).length).countP fun c =>
      (List.range g.length).all fun r =>
        cellPlayed playedSongIds ((g.getD r []).getD c defaultCell)) =
      ((List.range (g.headD []).length).countP fun c =>
        g.all fun row => cellPlayed playedSongIds (row.getD c defaultCell)) := by
    refine List.countP_congr fun c _ => ?_
    rw [all_range_getD g [] (fun row => cellPlayed playedSongIds (row.getD c defaultCell))]
  simp only [checkWins, if_neg hne, specTotalLines, specRowLines, specColLines,
    specDiagLines, hcolc]
  exact winList_mem_lines _ _ _

end MusicBingo

namespace MusicBingo

/-- Helper for concrete instances: a song with the given id. -/
def wSong (s : String) : Song := { id := s, artist := "", title := "", filePath := "" }

/-- Helper for concrete instances: an unmarked cell with the given id. -/
def wCell (s : String) : BingoGridCell := { song := wSong s, marked := false }

/-- A concrete 2x2 grid used by witnesses. -/
def wGrid2 : List (List BingoGridCell) :=
  [[wCell "a", wCell "b"], [wCell "c", wCell "d"]]

/-- Witness for `checkWins_line_thresholds`: the 2x2 grid with row 0
played. -/
theorem checkWins_line_thresholds_w :
    (WinType.oneLine ∈ checkWins (some wGrid2) ["a", "b"] ↔
      1 ≤ specTotalLines wGrid2 ["a", "b"]) ∧
    (WinType.twoLines ∈ checkWins (some wGrid2) ["a", "b"] ↔
      2 ≤ specTotalLines wGrid2 ["a", "b"]) :=
  checkWins_line_thresholds wGrid2 ["a", "b"] (by decide) (by decide)

end MusicBingo

namespace MusicBingo

/-- Row-major flattening: flattening `k` rows of `g` entries built from
positions `r * g + c` enumerates positions `0, …, k * g - 1`. -/
theorem flatten_range_grid {α : Type} (g : ℕ) (f : ℕ → α) :
    ∀ k : ℕ,
      ((List.range k).map fun r => (List.range g).map fun c => f (r * g + c)).flatten
        = (List.range (k * g)).map f := by
  intro k
  induction k with
  | zero => simp
  | succ k ih =>
    rw [List.range_succ, List.map_append, List.flatten_append, ih, Nat.succ_mul,
      List.range_add, List.map_append, List.map_map]
    simp only [List.map_cons, List.map_nil, List.flatten_cons, List.flatten_nil,
      List.append_nil]
    rfl

/-- `flatten_range_grid` instantiated at the cell constructor used by
`generateTicket`. -/
theorem flatten_gen_grid (sel : List Song) (g k : ℕ) :
    ((List.range k).map fun r => (List.range g).map fun c =>
        ({ song := sel.getD (r * g + c) defaultSong, marked := false } : BingoGridCell)).flatten
      = (List.range (k * g)).map fun i =>
          ({ song := sel.getD i defaultSong, marked := false } : BingoGridCell) :=
  flatten_range_grid g
    (fun i => ({ song := sel.getD i defaultSong, marked := false } : BingoGridCell)) k

/-- Reading a list back positionally reproduces the list. -/
theorem map_range_getD {α : Type} (l : List α) (d : α) (n : ℕ) (h : n = l.length) :
    ((List.range n).map fun i => l.getD i d) = l := by
  subst h
  apply List.ext_getElem
  · simp
  · intro i h1 h2
    simp [List.getD_eq_getElem?_getD, List.getElem?_eq_getElem h2]

/-- C2: with pairwise-distinct catalog ids, a catalog of at least
`gridSize²` songs, `gridSize ≥ 1`, and a shuffle that permutes the
catalog, `generateTicket` succeeds and the ticket has exactly
`gridSize` rows of exactly `gridSize` cells, its `gridSize²` cell song
ids are pairwise distinct, and every cell starts with
`marked = false`. -/
theorem generateTicket_shape (catalog : List Song) (gridSize : ℕ)
    (shuffle : List Song → List Song) (tid : String)
    (hnodup : (catalog.map Song.id).Nodup)
    (hlen : gridSize * gridSize ≤ catalog.length)
    (hpos : 1 ≤ gridSize)
    (hperm : (shuffle catalog).Perm catalog) :
    ∃ t, generateTicket catalog gridSize shuffle tid = Except.ok t ∧
      t.grid.length = gridSize ∧
      (∀ row ∈ t.grid, row.length = gridSize) ∧
      (t.grid.flatten.map fun c => c.song.id).Nodup ∧
      (∀ row ∈ t.grid, ∀ cell ∈ row, cell.marked = false) := by
  have hnlt : ¬ catalog.length < gridSize * gridSize := by omega
  simp only [generateTicket, if_neg hnlt]
  refine ⟨_, rfl, by simp, ?_, ?_, ?_⟩
  · intro row hrow
    simp only [List.mem_map, List.mem_range] at hrow
    obtain ⟨r, _, rfl⟩ := hrow
    simp
  · dsimp only
    rw [flatten_gen_grid ((shuffle catalog).take (gridSize * gridSize)) gridSize gridSize,
      List.map_map]
    show ((List.range (gridSize * gridSize)).map fun i =>
      (((shuffle catalog).take (gridSize * gridSize)).getD i defaultSong).id).Nodup
    have hsel : ((shuffle catalog).take (gridSize * gridSize)).length =
        gridSize * gridSize := by
      rw [List.length_take, hperm.length_eq]
      omega
    have hcomp : (fun i =>
        (((shuffle catalog).take (gridSize * gridSize)).getD i defaultSong).id) =
        Song.id ∘ fun i =>
          ((shuffle catalog).take (gridSize * gridSize)).getD i defaultSong := rfl
    rw [hcomp, ← List.map_map,
      map_range_getD ((shuffle catalog).take (gridSize * gridSize)) defaultSong
        (gridSize * gridSize) hsel.symm,
      List.map_take]
    have h1 : (((shuffle catalog)).map Song.id).Nodup :=
      ((hperm.map Song.id).nodup_iff).mpr hnodup
    exact h1.sublist (List.take_sublist _ _)
  · intro row hrow cell hcell
    simp only [List.mem_map, List.mem_range] at hrow
    obtain ⟨r, _, rfl⟩ := hrow
    simp only [List.mem_map, List.mem_range] at hcell
    obtain ⟨c, _, rfl⟩ := hcell
    rfl

end MusicBingo

namespace MusicBingo

/-- Witness for `generateTicket_shape`: one song, grid size 1, identity
shuffle. -/
theorem generateTicket_shape_w :
    ∃ t, generateTicket [wSong "a"] 1 (fun l => l) "1" = Except.ok t ∧
      t.grid.length = 1 ∧
      (∀ row ∈ t.grid, row.length = 1) ∧
      (t.grid.flatten.map fun c => c.song.id).Nodup ∧
      (∀ row ∈ t.grid, ∀ cell ∈ row, cell.marked = false) :=
  generateTicket_shape [wSong "a"] 1 (fun l => l) "1"
    (by decide) (by decide) (by decide) (List.Perm.refl _)

end MusicBingo

namespace MusicBingo

/-- Bridge between the `contains` test used by the seen-signatures set
and list membership. -/
theorem contains_iff_mem (l : List String) (s : String) : l.contains s = true ↔ s ∈ l := by
  simp [List.contains, List.elem_iff]

/-- Postcondition of the per-slot retry loop: a ticket is only accepted
together with its canonical signature, and only when that signature was
not already in the seen-signatures set. -/
theorem genSlotGo_found (songsToUse : List Song) (gridSize : ℕ)
    (oracle1 : ℕ → List Song → List Song) (ticketId : String)
    (generatedSets : List String) :
    ∀ (fuel attempts : ℕ) (t : BingoTicket) (sig : String),
      genSlotGo songsToUse gridSize oracle1 ticketId generatedSets attempts fuel =
        SlotResult.found t sig →
      sig = ticketSignature t ∧ generatedSets.contains sig = false := by
  intro fuel
  induction fuel with
  | zero =>
    intro attempts t sig h
    simp only [genSlotGo] at h
    exact SlotResult.noConfusion h
  | succ fuel ih =>
    intro attempts t sig h
    simp only [genSlotGo] at h
    split at h
    · exact absurd h (by simp)
    · rename_i t2 _
      split at h
      · exact ih (attempts + 1) t sig h
      · rename_i hc
        cases h
        exact ⟨rfl, by simpa using hc⟩

/-- Invariant of the batch loop: if every accumulated ticket has its
signature in the seen set and the accumulated signatures are distinct,
then the final ticket list has pairwise-distinct signatures. -/
theorem runSlots_nodup (songsToUse : List Song) (gridSize : ℕ)
    (oracle : ℕ → ℕ → List Song → List Song) :
    ∀ (rem i : ℕ) (generatedSets : List String) (newTickets : List BingoTicket)
      (tickets : List BingoTicket) (stoppedEarly : Bool),
      (∀ t ∈ newTickets, generatedSets.contains (ticketSignature t) = true) →
      (newTickets.map ticketSignature).Nodup →
      runSlots songsToUse gridSize oracle i rem generatedSets newTickets =
        BatchResult.done tickets stoppedEarly →
      (tickets.map ticketSignature).Nodup := by
  intro rem
  induction rem with
  | zero =>
    intro i sets acc tickets se hmem hnd h
    simp only [runSlots] at h
    cases h
    exact hnd
  | succ rem ih =>
    intro i sets acc tickets se hmem hnd h
    simp only [runSlots] at h
    split at h
    · exact absurd h (by simp)
    · cases h
      exact hnd
    · rename_i t sig hslot
      have hpost := genSlotGo_found songsToUse gridSize (oracle i) (toString (i + 1))
        sets maxAttempts 0 t sig hslot
      obtain ⟨rfl, hfresh⟩ := hpost
      refine ih (i + 1) (sets ++ [ticketSignature t]) (acc ++ [t]) tickets se ?_ ?_ h
      · intro t2 ht2
        rcases List.mem_append.mp ht2 with h2 | h2
        · have := hmem t2 h2
          rw [contains_iff_mem] at this ⊢
          exact List.mem_append_left _ this
        · rw [List.mem_singleton.mp h2, contains_iff_mem]
          exact List.mem_append_right _ (List.mem_singleton_self _)
      · rw [List.map_append]
        simp only [List.map_cons, List.map_nil]
        rw [List.nodup_append]
        refine ⟨hnd, List.nodup_singleton _, ?_⟩
        intro s hs hss
        rw [List.mem_singleton.mp hss] at hs
        obtain ⟨t3, ht3, ht3s⟩ := List.mem_map.mp hs
        have hmem3 := hmem t3 ht3
        rw [ht3s, contains_iff_mem] at hmem3
        have hnotmem : ¬ ticketSignature t ∈ sets := by
          rw [← contains_iff_mem, hfresh]
          simp
        exact hnotmem hmem3

end MusicBingo

namespace MusicBingo

/-- C1: whenever one `generateTickets` call ends in `setTickets` with a
list of produced tickets, any two distinct produced tickets have
different sorted sequences of grid-cell song ids (the loop discards any
freshly generated ticket whose signature — the sorted ids joined into
one key — was already seen in this call). -/
theorem generateTickets_batch_unique (songs : List Song)
    (selectedSongIds : List String) (gridSize count : ℕ)
    (oracle : ℕ → ℕ → List Song → List Song)
    (tickets : List BingoTicket) (stoppedEarly : Bool)
    (h : generateTickets songs selectedSongIds gridSize count oracle =
      BatchResult.done tickets stoppedEarly) :
    tickets.Pairwise fun t1 t2 => sortedSongIds t1 ≠ sortedSongIds t2 := by
  have hnd : (tickets.map ticketSignature).Nodup := by
    simp only [generateTickets] at h
    split at h
    · exact absurd h (by simp)
    · split at h
      · exact absurd h (by simp)
      · exact runSlots_nodup _ _ _ count 0 [] [] tickets stoppedEarly
          (by simp) List.nodup_nil h
  have hp : tickets.Pairwise fun t1 t2 => ticketSignature t1 ≠ ticketSignature t2 :=
    List.pairwise_map.mp hnd
  exact hp.imp fun hne heq => hne (congrArg (String.intercalate ",") heq)

/-- Witness for `generateTickets_batch_unique`: a one-song catalog,
grid size 1, one requested ticket. -/
theorem generateTickets_batch_unique_w :
    ([({ id := "1", grid := [[{ song := wSong "a", marked := false }]] } : BingoTicket)].Pairwise
      fun t1 t2 => sortedSongIds t1 ≠ sortedSongIds t2) :=
  generateTickets_batch_unique [wSong "a"] [] 1 1 (fun _ _ l => l)
    [{ id := "1", grid := [[{ song := wSong "a", marked := false }]] }] false (by decide)

end MusicBingo

namespace MusicBingo

/-- The retry loop never consults the randomness oracle at attempt
indices beyond those its fuel allows: two oracles that agree on the
first `maxAttempts` draws give identical slot outcomes. -/
theorem genSlotGo_oracle_bound (songsToUse : List Song) (gridSize : ℕ)
    (ticketId : String) (generatedSets : List String)
    (o1 o2 : ℕ → List Song → List Song) :
    ∀ (fuel attempts : ℕ), attempts + fuel ≤ maxAttempts →
      (∀ a, a < maxAttempts → o1 a = o2 a) →
      genSlotGo songsToUse gridSize o1 ticketId generatedSets attempts fuel =
        genSlotGo songsToUse gridSize o2 ticketId generatedSets attempts fuel := by
  intro fuel
  induction fuel with
  | zero =>
    intro attempts _ _
    simp [genSlotGo]
  | succ fuel ih =>
    intro attempts hle hagree
    simp only [genSlotGo]
    rw [hagree attempts (by omega)]
    cases hg : generateTicket songsToUse gridSize (o2 attempts) ticketId with
    | error msg => rfl
    | ok t =>
      dsimp only
      split
      · exact ih (attempts + 1) (by omega) hagree
      · rfl

/-- C6: (i) the outcome of a slot is invariant under changing the randomness
oracle at attempt indices ≥ 200 (`maxAttempts`), i.e. at most 200
generate-and-check attempts are consulted per slot — and the model is a
total function, so every batch call terminates after at most
`count × 200` such attempts; (ii) when a slot exhausts its 200 attempts
without a novel signature, the batch loop stops at once and returns
`done` with exactly the tickets accumulated so far, flagged
`stoppedEarly = true` (the shortfall alert), rather than discarding
them by an exception. -/
theorem generateTickets_retry_bound :
    (∀ (songsToUse : List Song) (gridSize : ℕ) (ticketId : String)
        (generatedSets : List String) (o1 o2 : ℕ → List Song → List Song),
      (∀ a, a < maxAttempts → o1 a = o2 a) →
      genSlot songsToUse gridSize o1 ticketId generatedSets =
        genSlot songsToUse gridSize o2 ticketId generatedSets) ∧
    (∀ (songsToUse : List Song) (gridSize : ℕ)
        (oracle : ℕ → ℕ → List Song → List Song) (i rem : ℕ)
        (generatedSets : List String) (newTickets : List BingoTicket),
      genSlot songsToUse gridSize (oracle i) (toString (i + 1)) generatedSets =
        SlotResult.exhausted →
      runSlots songsToUse gridSize oracle i (rem + 1) generatedSets newTickets =
        BatchResult.done newTickets true) := by
  constructor
  · intro stu g tid sets o1 o2 hagree
    exact genSlotGo_oracle_bound stu g tid sets o1 o2 maxAttempts 0 (by omega) hagree
  · intro stu g oracle i rem sets acc h
    simp only [runSlots, h]

/-- Witness for `generateTickets_retry_bound`: an oracle pair differing
only from attempt 200 on, and a slot that exhausts because the only
possible signature is already seen. -/
theorem generateTickets_retry_bound_w :
    genSlot [wSong "a"] 1 (fun _ l => l) "1" [] =
      genSlot [wSong "a"] 1 (fun a l => if a < 200 then l else l.reverse) "1" [] ∧
    runSlots [wSong "a"] 1 (fun _ _ l => l) 0 1 ["a"] [] =
      BatchResult.done [] true :=
  ⟨generateTickets_retry_bound.1 [wSong "a"] 1 "1" [] _ _
      (fun a ha => by funext l; simp [maxAttempts] at ha; simp [ha]),
   generateTickets_retry_bound.2 [wSong "a"] 1 (fun _ _ l => l) 0 0 ["a"] [] (by decide)⟩

end MusicBingo
